import Mathlib

/-- JSON-like data value as handled by the plugin. -/
inductive Value where
  | vnull : Value
  | vbool (b : Bool) : Value
  | vint (n : Int) : Value
  | vstr (s : String) : Value
  | vdict (entries : List (String × Value)) : Value
  | vlist (items : List Value) : Value

mutual

def Value.decEq : (a b : Value) → Decidable (a = b)
  | .vnull, .vnull => isTrue rfl
  | .vbool x, .vbool y =>
    if h : x = y then isTrue (by rw [h]) else isFalse (fun he => h (Value.vbool.inj he))
  | .vint x, .vint y =>
    if h : x = y then isTrue (by rw [h]) else isFalse (fun he => h (Value.vint.inj he))
  | .vstr x, .vstr y =>
    if h : x = y then isTrue (by rw [h]) else isFalse (fun he => h (Value.vstr.inj he))
  | .vdict x, .vdict y =>
    match Value.decEqPairs x y with
    | isTrue h => isTrue (by rw [h])
    | isFalse h => isFalse (fun he => h (Value.vdict.inj he))
  | .vlist x, .vlist y =>
    match Value.decEqList x y with
    | isTrue h => isTrue (by rw [h])
    | isFalse h => isFalse (fun he => h (Value.vlist.inj he))
  | .vnull, .vbool _ => isFalse (fun h => Value.noConfusion h)
  | .vnull, .vint _ => isFalse (fun h => Value.noConfusion h)
  | .vnull, .vstr _ => isFalse (fun h => Value.noConfusion h)
  | .vnull, .vdict _ => isFalse (fun h => Value.noConfusion h)
  | .vnull, .vlist _ => isFalse (fun h => Value.noConfusion h)
  | .vbool _, .vnull => isFalse (fun h => Value.noConfusion h)
  | .vbool _, .vint _ => isFalse (fun h => Value.noConfusion h)
  | .vbool _, .vstr _ => isFalse (fun h => Value.noConfusion h)
  | .vbool _, .vdict _ => isFalse (fun h => Value.noConfusion h)
  | .vbool _, .vlist _ => isFalse (fun h => Value.noConfusion h)
  | .vint _, .vnull => isFalse (fun h => Value.noConfusion h)
  | .vint _, .vbool _ => isFalse (fun h => Value.noConfusion h)
  | .vint _, .vstr _ => isFalse (fun h => Value.noConfusion h)
  | .vint _, .vdict _ => isFalse (fun h => Value.noConfusion h)
  | .vint _, .vlist _ => isFalse (fun h => Value.noConfusion h)
  | .vstr _, .vnull => isFalse (fun h => Value.noConfusion h)
  | .vstr _, .vbool _ => isFalse (fun h => Value.noConfusion h)
  | .vstr _, .vint _ => isFalse (fun h => Value.noConfusion h)
  | .vstr _, .vdict _ => isFalse (fun h => Value.noConfusion h)
  | .vstr _, .vlist _ => isFalse (fun h => Value.noConfusion h)
  | .vdict _, .vnull => isFalse (fun h => Value.noConfusion h)
  | .vdict _, .vbool _ => isFalse (fun h => Value.noConfusion h)
  | .vdict _, .vint _ => isFalse (fun h => Value.noConfusion h)
  | .vdict _, .vstr _ => isFalse (fun h => Value.noConfusion h)
  | .vdict _, .vlist _ => isFalse (fun h => Value.noConfusion h)
  | .vlist _, .vnull => isFalse (fun h => Value.noConfusion h)
  | .vlist _, .vbool _ => isFalse (fun h => Value.noConfusion h)
  | .vlist _, .vint _ => isFalse (fun h => Value.noConfusion h)
  | .vlist _, .vstr _ => isFalse (fun h => Value.noConfusion h)
  | .vlist _, .vdict _ => isFalse (fun h => Value.noConfusion h)

def Value.decEqPairs : (a b : List (String × Value)) → Decidable (a = b)
  | [], [] => isTrue rfl
  | [], _ :: _ => isFalse (fun h => List.noConfusion h)
  | _ :: _, [] => isFalse (fun h => List.noConfusion h)
  | (k, v) :: t, (k', v') :: t' =>
    if hk : k = k' then
      match Value.decEq v v' with
      | isFalse h => isFalse (fun he => by
          injection he with h1 _
          exact h (congrArg Prod.snd h1))
      | isTrue hv =>
        match Value.decEqPairs t t' with
        | isFalse h => isFalse (fun he => by
            injection he with _ h2
            exact h h2)
        | isTrue ht => isTrue (by rw [hk, hv, ht])
    else isFalse (fun he => by
      injection he with h1 _
      exact hk (congrArg Prod.fst h1))

def Value.decEqList : (a b : List Value) → Decidable (a = b)
  | [], [] => isTrue rfl
  | [], _ :: _ => isFalse (fun h => List.noConfusion h)
  | _ :: _, [] => isFalse (fun h => List.noConfusion h)
  | v :: t, v' :: t' =>
    match Value.decEq v v' with
    | isFalse h => isFalse (fun he => by
        injection he with h1 _
        exact h h1)
    | isTrue hv =>
      match Value.decEqList t t' with
      | isFalse h => isFalse (fun he => by
          injection he with _ h2
          exact h h2)
      | isTrue ht => isTrue (by rw [hv, ht])

end

instance : DecidableEq Value := Value.decEq

/-- Python truthiness of a value (`if not x`): `None`, `False`, `0`, `""`,
empty dict and empty list are falsy. -/
def Value.truthy : Value → Bool
  | .vnull => false
  | .vbool b => b
  | .vint n => n != 0
  | .vstr s => s != ""
  | .vdict m => !m.isEmpty
  | .vlist l => !l.isEmpty

/-- First-occurrence lookup in an association list (Python dicts hold each
key once, so this is exact). -/
def alistGet {α β : Type} [DecidableEq α] : List (α × β) → α → Option β
  | [], _ => none
  | (k', v) :: t, k => if k' = k then some v else alistGet t k

/-- `d[k] = v` on a Python dict: replace the value at an existing key in
place (Python dicts keep the key's original position), else append. -/
def alistInsert {α β : Type} [DecidableEq α] : List (α × β) → α → β → List (α × β)
  | [], k, v => [(k, v)]
  | (k', v') :: t, k, v => if k' = k then (k, v) :: t else (k', v') :: alistInsert t k v

/-- `d.setdefault(k, []).append(x)` on a Python dict of lists. -/
def alistAppendAt {α β : Type} [DecidableEq α] : List (α × List β) → α → β → List (α × List β)
  | [], k, x => [(k, [x])]
  | (k', l) :: t, k, x => if k' = k then (k', l ++ [x]) :: t else (k', l) :: alistAppendAt t k x

/-- `v.get(key, dflt)` for a Python dict value: the stored value when the key
is present, the default when the key is absent or `v` is not a dict. -/
def pyGet (v : Value) (k : String) (dflt : Value) : Value :=
  match v with
  | .vdict m => (alistGet m k).getD dflt
  | _ => dflt

/-- `get_nested_value(data, path)` from `action.py`: walk `path` by
sequential key lookups; `None` the moment the current value is `None` or
not a dict; `data.get(key)` (default `None`) at each step. -/
def get_nested_value : Value → List String → Value
  | d, [] => d
  | .vnull, _ :: _ => .vnull
  | .vdict m, k :: rest => get_nested_value ((alistGet m k).getD .vnull) rest
  | _, _ :: _ => .vnull

/-- A calibre book record as read through `db.get_metadata`: stable uuid,
title, authors, the free-form `identifiers` sub-mapping and the remaining
(custom-column) fields. -/
structure Metadata where
  uuid : String
  title : String
  authors : List String
  identifiers : List (String × Value)
  fields : List (String × Value)
deriving DecidableEq

/-- `metadata.get(column_name)`: `None` for an unset column. -/
def Metadata.mget (md : Metadata) (k : String) : Value :=
  (alistGet md.fields k).getD .vnull

/-- `metadata.set(column_name, value)`. -/
def Metadata.mset (md : Metadata) (k : String) (v : Value) : Metadata :=
  { md with fields := alistInsert md.fields k v }

/-- `identifiers.get(key)`: `None` default. -/
def identGet (idents : List (String × Value)) (k : String) : Value :=
  (alistGet idents k).getD .vnull

/-- The calibre library: book id to record (`db.search('')` enumerates the
ids in stored order). -/
structure Library where
  books : List (Nat × Metadata)
deriving DecidableEq

/-- `db.get_metadata(book_id)`. -/
def Library.getMetadata (db : Library) (book_id : Nat) : Option Metadata :=
  alistGet db.books book_id

/-- `db.set_metadata(book_id, md, set_title=False, set_authors=False)`:
replaces the stored record but preserves its title and authors. -/
def Library.setMetadata (db : Library) (book_id : Nat) (md : Metadata) : Library :=
  ⟨db.books.map (fun b =>
    if b.1 = book_id then (b.1, { md with title := b.2.title, authors := b.2.authors }) else b)⟩

/-- `db.lookup_by_uuid(book_uuid)` combined with the subsequent
`db.get_metadata(book_id)` read: find the book with the given uuid. -/
def Library.lookupByUuid (db : Library) (book_uuid : String) : Option (Nat × Metadata) :=
  db.books.find? (fun b => b.2.uuid = book_uuid)

/-- Return value of `update_metadata`: the `(status, detail)` pair, plus the
resulting library state and whether a store write happened. -/
structure UMResult where
  ok : Bool
  updated : List String
  err : Option String
  db : Library
  wrote : Bool
deriving DecidableEq

/-- One step of the per-key loop of `update_metadata`: set the key when the
new value differs from the current one. -/
def applyKV (acc : Metadata × List String) (kv : String × Value) : Metadata × List String :=
  if kv.2 ≠ acc.1.mget kv.1 then (acc.1.mset kv.1 kv.2, acc.2 ++ [kv.1]) else acc

/-- The per-key loop of `update_metadata`: set each supplied key whose new
value differs from the current one, collecting the changed keys. -/
def applyKVs (metadata : Metadata) (kvs : List (String × Value)) : Metadata × List String :=
  kvs.foldl applyKV (metadata, [])

/-- `update_metadata(book_uuid, keys_values_to_update)` from `action.py`:
resolve by uuid (failures and falsy ids report book-not-found), set each
differing key, and write back once iff at least one key changed. -/
def update_metadata (db : Library) (book_uuid : String) (kvs : List (String × Value)) : UMResult :=
  match db.lookupByUuid book_uuid with
  | none => ⟨false, [], some ("Book not found: " ++ book_uuid), db, false⟩
  | some (book_id, metadata) =>
    if book_id = 0 then ⟨false, [], some ("Book not found: " ++ book_uuid), db, false⟩
    else
      let r := applyKVs metadata kvs
      if r.2 ≠ [] then ⟨true, r.2, none, db.setMetadata book_id r.1, true⟩
      else ⟨true, r.2, none, db, false⟩

/-- One entry of the static `CUSTOM_COLUMN_DEFAULTS` table: heading, source
path, source category, optional transform (a pure function in this model;
the table itself lives in the plugin's config module and is a parameter
here). -/
structure ColMeta where
  column_heading : String
  data_location : List String
  api_source : String
  transform : Option (Value → Value)

/-- `CONFIG.get(config_name, '')`: the configured destination column. -/
def cfgGet (cfg : List (String × String)) (name : String) : String :=
  (alistGet cfg name).getD ""

/-- Value extraction for one column (`action.py` lines 269-278): dispatch on
`api_source`; for the `mediaProgress` source the "Audiobook Started" column
defaults to `True` when the extracted value is `None`. -/
def extractRaw (cm : ColMeta) (progress_data item_data me_data : Value) : Value :=
  if cm.api_source = "mediaProgress" then
    let v := get_nested_value progress_data cm.data_location
    if cm.column_heading = "Audiobook Started" ∧ v = .vnull then .vbool true else v
  else if cm.api_source = "lib_items" then get_nested_value item_data cm.data_location
  else if cm.api_source = "me" then get_nested_value me_data cm.data_location
  else .vnull

/-- Extracted value after the optional transform (`action.py` lines 280-282):
the transform runs only on a non-`None` extraction. -/
def entryValue (cm : ColMeta) (progress_data item_data me_data : Value) : Value :=
  let v := extractRaw cm progress_data item_data me_data
  if v ≠ .vnull then
    match cm.transform with
    | some f => f v
    | none => v
  else .vnull

/-- One iteration of the per-column loop (`action.py` lines 262-288): skip
unconfigured columns, skip `None` values, and record the update and the
change-log entry when the new value differs from the current one. -/
def stepCol (cfg : List (String × String)) (progress_data item_data me_data : Value)
    (metadata : Metadata)
    (acc : List (String × Value) × List (String × Value × Value))
    (e : String × ColMeta) : List (String × Value) × List (String × Value × Value) :=
  let column_name := cfgGet cfg e.1
  if column_name = "" then acc
  else
    let value := entryValue e.2 progress_data item_data me_data
    if value ≠ .vnull then
      let old_value := metadata.mget column_name
      if old_value ≠ value then
        (alistInsert acc.1 column_name value, acc.2 ++ [(e.2.column_heading, old_value, value)])
      else acc
    else acc

/-- The per-record reconciliation: `keys_values_to_update` plus the
change-log entries, computed over the configured column table. -/
def computeUpdates (cols : List (String × ColMeta)) (cfg : List (String × String))
    (progress_data item_data me_data : Value) (metadata : Metadata) :
    List (String × Value) × List (String × Value × Value) :=
  cols.foldl (stepCol cfg progress_data item_data me_data metadata) ([], [])

/-- The destination columns assigned by the configuration to the mapping
entries, in table order (unconfigured entries omitted). -/
def assignedCols (cols : List (String × ColMeta)) (cfg : List (String × String)) : List String :=
  cols.filterMap (fun e => if cfgGet cfg e.1 = "" then none else some (cfgGet cfg e.1))

/-- One row of the sync run report: `{'title': ..., heading: "old >> new"
entries, 'error': ...}`; change entries are kept as (heading, old, new). -/
structure ResultRow where
  title : String
  changes : List (String × Value × Value)
  error : Option String
deriving DecidableEq

/-- Accumulated state of one sync run: the library (threaded through the
applies) and the report tallies. -/
structure SyncState where
  db : Library
  num_success : Nat
  num_fail : Nat
  num_skip : Nat
  results : List ResultRow
deriving DecidableEq

/-- Interpret a value as a Python list for iteration. -/
def asList : Value → List Value
  | .vlist l => l
  | _ => []

/-- Unwrap the items fetch: a dict with a `results` entry yields that list,
a bare list is used as is, anything else is empty. -/
def unwrapItems (items_data : Value) : List Value :=
  match items_data with
  | .vdict m => if (alistGet m "results").isSome then asList ((alistGet m "results").getD .vnull) else []
  | .vlist l => l
  | _ => []

/-- `items_dict`: item id to item, for items with a truthy id
(last-write-wins on duplicate ids). -/
def buildItemsDict (items_list : List Value) : List (Value × Value) :=
  items_list.foldl
    (fun d item =>
      let item_id := pyGet item "id" .vnull
      if item_id.truthy then alistInsert d item_id item else d) []

/-- `media_progress_dict`: `libraryItemId` to progress record, from
`me_data.get('mediaProgress', [])`. -/
def buildProgressDict (me_data : Value) : List (Value × Value) :=
  (asList (pyGet me_data "mediaProgress" (.vlist []))).foldl
    (fun d prog =>
      let lib_item_id := pyGet prog "libraryItemId" .vnull
      if lib_item_id.truthy then alistInsert d lib_item_id prog else d) []

/-- One iteration of the per-book sync loop (`action.py` lines 244-299):
skip unlinked books silently; tally a linked book whose item is missing as
a skip with a not-found detail; otherwise reconcile and apply. -/
def syncStep (cols : List (String × ColMeta)) (cfg : List (String × String))
    (items_dict media_progress_dict : List (Value × Value)) (me_data : Value)
    (st : SyncState) (book_id : Nat) : SyncState :=
  match st.db.getMetadata book_id with
  | none => st
  | some metadata =>
    let abs_id := identGet metadata.identifiers "audiobookshelf_id"
    if ¬ abs_id.truthy then st
    else
      let item_data := (alistGet items_dict abs_id).getD .vnull
      if ¬ item_data.truthy then
        { st with
          results := st.results ++ [⟨metadata.title, [], some "Audiobookshelf item not found"⟩]
          num_skip := st.num_skip + 1 }
      else
        let progress_data := (alistGet media_progress_dict abs_id).getD (.vdict [])
        let u := computeUpdates cols cfg progress_data item_data me_data metadata
        if u.1 ≠ [] then
          let r := update_metadata st.db metadata.uuid u.1
          if r.ok then
            { st with
              db := r.db
              num_success := st.num_success + 1
              results := st.results ++ [⟨metadata.title, u.2, none⟩] }
          else
            { st with
              db := r.db
              num_fail := st.num_fail + 1
              results := st.results ++ [⟨metadata.title, u.2, r.err⟩] }
        else
          { st with
            num_skip := st.num_skip + 1
            results := st.results ++ [⟨metadata.title, u.2, none⟩] }

/-- `sync_from_audiobookshelf` after a successful fetch: index the two
payloads once, then process every book id. -/
def sync_from_audiobookshelf (cols : List (String × ColMeta)) (cfg : List (String × String))
    (db : Library) (items_data me_data : Value) : SyncState :=
  let items_list := unwrapItems items_data
  let items_dict := buildItemsDict items_list
  let media_progress_dict := buildProgressDict me_data
  (db.books.map (fun b => b.1)).foldl
    (syncStep cols cfg items_dict media_progress_dict me_data) ⟨db, 0, 0, 0, []⟩

/-- `item.get('media', {}).get('metadata', {})`. -/
def itemMetadata (item : Value) : Value :=
  pyGet (pyGet item "media" (.vdict [])) "metadata" (.vdict [])

/-- Add one item to an identifier index when the identifier is truthy
(`isbn_index.setdefault(isbn, []).append(item)` and likewise for asin). -/
def addToIndex (keyName : String) (idx : List (Value × List Value)) (item : Value) :
    List (Value × List Value) :=
  let k := pyGet (itemMetadata item) keyName .vnull
  if k.truthy then alistAppendAt idx k item else idx

/-- The isbn and asin indexes built in one pass over the fetched items. -/
def buildIndexes (abs_items : List Value) :
    List (Value × List Value) × List (Value × List Value) :=
  abs_items.foldl (fun idx item => (addToIndex "isbn" idx.1 item, addToIndex "asin" idx.2 item))
    ([], [])

/-- The `matched_item` selection of `quick_link_books` (`action.py` lines
345-351): the isbn index entry when the book's isbn is truthy and matches
exactly one item, else the asin index under the same rule, else none. -/
def matchedItem (isbn_index asin_index : List (Value × List Value))
    (idents : List (String × Value)) : Option Value :=
  let book_isbn := identGet idents "isbn"
  let book_asin := identGet idents "asin"
  match (if book_isbn.truthy then alistGet isbn_index book_isbn else none) with
  | some [it] => some it
  | _ =>
    match (if book_asin.truthy then alistGet asin_index book_asin else none) with
    | some [it] => some it
    | _ => none

/-- Interpret a value as a Python string. -/
def asStr (v : Value) (dflt : String) : String :=
  match v with
  | .vstr s => s
  | _ => dflt

/-- One row of the quick-link report: title plus a linked or an error
detail. -/
structure QLRow where
  title : String
  linked : Option String
  error : Option String
deriving DecidableEq

/-- Accumulated state of one quick-link run. -/
structure QLState where
  db : Library
  num_linked : Nat
  num_failed : Nat
  results : List QLRow
deriving DecidableEq

/-- One iteration of the quick-link loop (`action.py` lines 340-368):
already-linked books are skipped outright; a unique isbn or asin match
writes `audiobookshelf_id`; anything else is a no-unique-match failure. -/
def quickLinkStep (isbn_index asin_index : List (Value × List Value))
    (st : QLState) (book_id : Nat) : QLState :=
  match st.db.getMetadata book_id with
  | none => st
  | some metadata =>
    if (alistGet metadata.identifiers "audiobookshelf_id").isSome then st
    else
      match matchedItem isbn_index asin_index metadata.identifiers with
      | some it =>
        let abs_id := pyGet it "id" .vnull
        let abs_title := asStr (pyGet (itemMetadata it) "title" (.vstr "Unknown Title")) "Unknown Title"
        let md' := { metadata with identifiers := alistInsert metadata.identifiers "audiobookshelf_id" abs_id }
        { st with
          db := st.db.setMetadata book_id md'
          num_linked := st.num_linked + 1
          results := st.results ++ [⟨metadata.title, some ("Linked to \"" ++ abs_title ++ "\""), none⟩] }
      | none =>
        { st with
          num_failed := st.num_failed + 1
          results := st.results ++ [⟨metadata.title, none, some "No unique match found"⟩] }

/-- `quick_link_books` after a successful fetch: build the two identifier
indexes, then process every book id. -/
def quick_link_books (db : Library) (items_data : Value) : QLState :=
  let abs_items := unwrapItems items_data
  let idx := buildIndexes abs_items
  (db.books.map (fun b => b.1)).foldl (quickLinkStep idx.1 idx.2) ⟨db, 0, 0, []⟩

/-- Python `str.lower()` (code points, as far as `Char.toLower` reaches). -/
def pyLower (s : String) : String :=
  String.mk (s.data.map Char.toLower)

/-- Python string `<=`: lexicographic comparison by code points. -/
def lexLe : List Char → List Char → Bool
  | [], _ => true
  | _ :: _, [] => false
  | a :: s, b :: t => if a < b then true else if b < a then false else lexLe s t

/-- Lowercased remote title used by the `LinkDialog` sort key. -/
def lowerTitle (item : Value) : String :=
  pyLower (asStr (pyGet (itemMetadata item) "title" (.vstr "")) "")

/-- Lowercased remote author name used by the `LinkDialog` sort key. -/
def lowerAuthor (item : Value) : String :=
  pyLower (asStr (pyGet (itemMetadata item) "authorName" (.vstr "")) "")

/-- `LinkDialog` match score: one point for an exact case-insensitive title
match, one point for case-insensitive author membership. -/
def linkScore (calibre_title : String) (calibre_authors : List String) (item : Value) : Nat :=
  (if lowerTitle item = calibre_title then 1 else 0) +
  (if calibre_authors.contains (lowerAuthor item) then 1 else 0)

/-- The candidate order realised by sorting on `(-score, lowercased title)`:
strictly higher score first, ties by lowercased title ascending. -/
def linkLe (calibre_title : String) (calibre_authors : List String) (a b : Value) : Prop :=
  linkScore calibre_title calibre_authors a > linkScore calibre_title calibre_authors b ∨
    (linkScore calibre_title calibre_authors a = linkScore calibre_title calibre_authors b ∧
      lexLe (lowerTitle a).data (lowerTitle b).data = true)

instance linkLeDecidable (ct : String) (cas : List String) : DecidableRel (linkLe ct cas) :=
  fun a b =>
    inferInstanceAs (Decidable (linkScore ct cas a > linkScore ct cas b ∨
      (linkScore ct cas a = linkScore ct cas b ∧
        lexLe (lowerTitle a).data (lowerTitle b).data = true)))

/-- `sorted(items, key=sort_key)` from `LinkDialog.__init__`: the calibre
title and authors are lowercased once, then the items are sorted by
descending score and ascending lowercased title (a stable sort, like
Python's). -/
def linkDialogSortedItems (calibre_metadata : Metadata) (items : List Value) : List Value :=
  let calibre_title := pyLower calibre_metadata.title
  let calibre_authors := calibre_metadata.authors.map (fun a => pyLower a)
  List.insertionSort (linkLe calibre_title calibre_authors) items

theorem alistGet_alistInsert {α β : Type} [DecidableEq α] (m : List (α × β)) (k k' : α) (v : β) :
    alistGet (alistInsert m k v) k' = if k = k' then some v else alistGet m k' := by
  induction m with
  | nil => by_cases h : k = k' <;> simp [alistInsert, alistGet, h]
  | cons p t ih =>
    obtain ⟨pk, pv⟩ := p
    by_cases h1 : pk = k
    · subst h1
      by_cases h2 : pk = k' <;> simp [alistInsert, alistGet, h2]
    · by_cases h2 : pk = k'
      · subst h2
        have h4 : ¬ k = pk := fun h => h1 h.symm
        simp [alistInsert, alistGet, h1, h4]
      · simp [alistInsert, alistGet, h1, h2, ih]

theorem mem_alistInsert {α β : Type} [DecidableEq α] (m : List (α × β)) (k : α) (v : β)
    (p : α × β) (hp : p ∈ alistInsert m k v) : p = (k, v) ∨ p ∈ m := by
  induction m with
  | nil => simpa [alistInsert] using hp
  | cons q t ih =>
    obtain ⟨qk, qv⟩ := q
    by_cases h : qk = k
    · subst h
      simp [alistInsert] at hp
      rcases hp with h1 | h1
      · exact Or.inl h1
      · exact Or.inr (List.mem_cons_of_mem _ h1)
    · simp [alistInsert, h] at hp
      rcases hp with h1 | h1
      · exact Or.inr (by simp [h1])
      · rcases ih h1 with h2 | h2
        · exact Or.inl h2
        · exact Or.inr (List.mem_cons_of_mem _ h2)

theorem mem_keys_alistInsert {α β : Type} [DecidableEq α] (m : List (α × β)) (k : α) (v : β)
    (a : α) : a ∈ (alistInsert m k v).map Prod.fst ↔ a = k ∨ a ∈ m.map Prod.fst := by
  induction m with
  | nil => simp [alistInsert]
  | cons q t ih =>
    obtain ⟨qk, qv⟩ := q
    by_cases h : qk = k
    · subst h
      simp [alistInsert]
    · simp [alistInsert, h, ih]
      tauto

theorem keys_nodup_alistInsert {α β : Type} [DecidableEq α] (m : List (α × β)) (k : α) (v : β)
    (h : (m.map Prod.fst).Nodup) : ((alistInsert m k v).map Prod.fst).Nodup := by
  induction m with
  | nil => simp [alistInsert]
  | cons q t ih =>
    obtain ⟨qk, qv⟩ := q
    rw [List.map_cons, List.nodup_cons] at h
    by_cases hq : qk = k
    · subst hq
      have he : alistInsert ((qk, qv) :: t) qk v = (qk, v) :: t := by
        simp [alistInsert]
      rw [he, List.map_cons, List.nodup_cons]
      exact h
    · have he : alistInsert ((qk, qv) :: t) k v = (qk, qv) :: alistInsert t k v := by
        simp [alistInsert, hq]
      rw [he, List.map_cons, List.nodup_cons]
      refine ⟨fun hmem => ?_, ih h.2⟩
      rw [mem_keys_alistInsert] at hmem
      rcases hmem with rfl | hmem
      · exact hq rfl
      · exact h.1 hmem

theorem alistGet_eq_none {α β : Type} [DecidableEq α] (m : List (α × β)) (k : α) :
    alistGet m k = none ↔ k ∉ m.map Prod.fst := by
  induction m with
  | nil => simp [alistGet]
  | cons q t ih =>
    obtain ⟨qk, qv⟩ := q
    rw [List.map_cons, List.mem_cons]
    by_cases h : qk = k
    · subst h
      constructor
      · intro hh
        exact absurd hh (by simp [alistGet])
      · intro hh
        exact absurd (Or.inl rfl) hh
    · have he : alistGet ((qk, qv) :: t) k = alistGet t k := by simp [alistGet, h]
      rw [he, ih]
      constructor
      · intro hh hc
        rcases hc with hc | hc
        · exact h hc.symm
        · exact hh hc
      · intro hh hc
        exact hh (Or.inr hc)

theorem mem_of_alistGet_eq_some {α β : Type} [DecidableEq α] (m : List (α × β)) (k : α) (v : β)
    (h : alistGet m k = some v) : (k, v) ∈ m := by
  induction m with
  | nil => simp [alistGet] at h
  | cons q t ih =>
    obtain ⟨qk, qv⟩ := q
    by_cases hq : qk = k
    · subst hq
      simp [alistGet] at h
      simp [h]
    · simp [alistGet, hq] at h
      exact List.mem_cons_of_mem _ (ih h)

theorem alistGet_alistAppendAt {α β : Type} [DecidableEq α] (m : List (α × List β)) (k k' : α)
    (x : β) :
    alistGet (alistAppendAt m k x) k' =
      if k = k' then some ((alistGet m k).getD [] ++ [x]) else alistGet m k' := by
  induction m with
  | nil => by_cases h : k = k' <;> simp [alistAppendAt, alistGet, h]
  | cons p t ih =>
    obtain ⟨pk, pl⟩ := p
    by_cases h1 : pk = k
    · subst h1
      by_cases h2 : pk = k' <;> simp [alistAppendAt, alistGet, h2]
    · by_cases h2 : pk = k'
      · subst h2
        have h4 : ¬ k = pk := fun h => h1 h.symm
        simp [alistAppendAt, alistGet, h1, h4]
      · simp [alistAppendAt, alistGet, h1, h2, ih]

theorem mget_mset (md : Metadata) (k k' : String) (v : Value) :
    (md.mset k v).mget k' = if k = k' then v else md.mget k' := by
  unfold Metadata.mget Metadata.mset
  simp [alistGet_alistInsert]
  by_cases h : k = k' <;> simp [h]

theorem applyKV_fold_mget_not_mem (kvs : List (String × Value)) (acc : Metadata × List String)
    (k : String) (hk : k ∉ kvs.map Prod.fst) :
    ((kvs.foldl applyKV acc).1).mget k = acc.1.mget k := by
  induction kvs generalizing acc with
  | nil => simp
  | cons kv t ih =>
    rw [List.map_cons, List.mem_cons] at hk
    push_neg at hk
    rw [List.foldl_cons, ih _ hk.2]
    unfold applyKV
    split
    · rw [mget_mset, if_neg (fun h => hk.1 h.symm)]
    · rfl

theorem applyKV_fold_mget_mem (kvs : List (String × Value)) (acc : Metadata × List String)
    (k : String) (v : Value) (hnd : (kvs.map Prod.fst).Nodup) (hm : (k, v) ∈ kvs) :
    ((kvs.foldl applyKV acc).1).mget k = v := by
  induction kvs generalizing acc with
  | nil => simp at hm
  | cons kv t ih =>
    rw [List.map_cons, List.nodup_cons] at hnd
    rcases List.mem_cons.mp hm with heq | hm'
    · subst heq
      rw [List.foldl_cons, applyKV_fold_mget_not_mem _ _ _ hnd.1]
      unfold applyKV
      split
      · rw [mget_mset, if_pos rfl]
      · next h =>
        push_neg at h
        exact h.symm
    · rw [List.foldl_cons]
      exact ih _ hnd.2 hm'

theorem stepCol_unconfigured (cfg : List (String × String)) (pd itd me : Value) (md : Metadata)
    (acc : List (String × Value) × List (String × Value × Value)) (e : String × ColMeta)
    (h : cfgGet cfg e.1 = "") : stepCol cfg pd itd me md acc e = acc := by
  simp [stepCol, h]

theorem stepCol_null (cfg : List (String × String)) (pd itd me : Value) (md : Metadata)
    (acc : List (String × Value) × List (String × Value × Value)) (e : String × ColMeta)
    (h1 : cfgGet cfg e.1 ≠ "") (h2 : entryValue e.2 pd itd me = .vnull) :
    stepCol cfg pd itd me md acc e = acc := by
  simp [stepCol, h1, h2]

theorem stepCol_unchanged (cfg : List (String × String)) (pd itd me : Value) (md : Metadata)
    (acc : List (String × Value) × List (String × Value × Value)) (e : String × ColMeta)
    (h1 : cfgGet cfg e.1 ≠ "") (h2 : entryValue e.2 pd itd me ≠ .vnull)
    (h3 : md.mget (cfgGet cfg e.1) = entryValue e.2 pd itd me) :
    stepCol cfg pd itd me md acc e = acc := by
  simp [stepCol, h1, h2, h3]

theorem stepCol_insert (cfg : List (String × String)) (pd itd me : Value) (md : Metadata)
    (acc : List (String × Value) × List (String × Value × Value)) (e : String × ColMeta)
    (h1 : cfgGet cfg e.1 ≠ "") (h2 : entryValue e.2 pd itd me ≠ .vnull)
    (h3 : md.mget (cfgGet cfg e.1) ≠ entryValue e.2 pd itd me) :
    stepCol cfg pd itd me md acc e =
      (alistInsert acc.1 (cfgGet cfg e.1) (entryValue e.2 pd itd me),
        acc.2 ++ [(e.2.column_heading, md.mget (cfgGet cfg e.1), entryValue e.2 pd itd me)]) := by
  simp [stepCol, h1, h2, h3]

theorem mem_computeUpdates_fold (cfg : List (String × String)) (pd itd me : Value) (md : Metadata) :
    ∀ (cols : List (String × ColMeta)) acc (p : String × Value),
      p ∈ ((cols.foldl (stepCol cfg pd itd me md) acc).1) →
      p ∈ acc.1 ∨ ∃ e, e ∈ cols ∧ p.1 = cfgGet cfg e.1 ∧ p.1 ≠ "" ∧
        p.2 = entryValue e.2 pd itd me ∧ p.2 ≠ .vnull ∧ md.mget p.1 ≠ p.2
  | [], _, p, hp => Or.inl hp
  | e :: t, acc, p, hp => by
    rw [List.foldl_cons] at hp
    rcases mem_computeUpdates_fold cfg pd itd me md t _ p hp with h | h
    · by_cases h1 : cfgGet cfg e.1 = ""
      · rw [stepCol_unconfigured cfg pd itd me md acc e h1] at h
        exact Or.inl h
      · by_cases h2 : entryValue e.2 pd itd me = .vnull
        · rw [stepCol_null cfg pd itd me md acc e h1 h2] at h
          exact Or.inl h
        · by_cases h3 : md.mget (cfgGet cfg e.1) = entryValue e.2 pd itd me
          · rw [stepCol_unchanged cfg pd itd me md acc e h1 h2 h3] at h
            exact Or.inl h
          · rw [stepCol_insert cfg pd itd me md acc e h1 h2 h3] at h
            rcases mem_alistInsert _ _ _ _ h with h4 | h4
            · subst h4
              exact Or.inr ⟨e, List.mem_cons_self e t, rfl, h1, rfl, h2, h3⟩
            · exact Or.inl h4
    · obtain ⟨e', he', rest⟩ := h
      exact Or.inr ⟨e', List.mem_cons_of_mem _ he', rest⟩

theorem keys_nodup_computeUpdates_fold (cfg : List (String × String)) (pd itd me : Value)
    (md : Metadata) :
    ∀ (cols : List (String × ColMeta)) acc, ((acc.1).map Prod.fst).Nodup →
      (((cols.foldl (stepCol cfg pd itd me md) acc).1).map Prod.fst).Nodup
  | [], _, h => h
  | e :: t, acc, h => by
    rw [List.foldl_cons]
    apply keys_nodup_computeUpdates_fold cfg pd itd me md t
    by_cases h1 : cfgGet cfg e.1 = ""
    · rw [stepCol_unconfigured cfg pd itd me md acc e h1]
      exact h
    · by_cases h2 : entryValue e.2 pd itd me = .vnull
      · rw [stepCol_null cfg pd itd me md acc e h1 h2]
        exact h
      · by_cases h3 : md.mget (cfgGet cfg e.1) = entryValue e.2 pd itd me
        · rw [stepCol_unchanged cfg pd itd me md acc e h1 h2 h3]
          exact h
        · rw [stepCol_insert cfg pd itd me md acc e h1 h2 h3]
          exact keys_nodup_alistInsert _ _ _ h

theorem computeUpdates_get_persist (cfg : List (String × String)) (pd itd me : Value)
    (md : Metadata) :
    ∀ (cols : List (String × ColMeta)) acc (c : String), (alistGet acc.1 c).isSome →
      (alistGet ((cols.foldl (stepCol cfg pd itd me md) acc).1) c).isSome
  | [], _, _, h => h
  | e :: t, acc, c, h => by
    rw [List.foldl_cons]
    apply computeUpdates_get_persist cfg pd itd me md t
    by_cases h1 : cfgGet cfg e.1 = ""
    · rw [stepCol_unconfigured cfg pd itd me md acc e h1]
      exact h
    · by_cases h2 : entryValue e.2 pd itd me = .vnull
      · rw [stepCol_null cfg pd itd me md acc e h1 h2]
        exact h
      · by_cases h3 : md.mget (cfgGet cfg e.1) = entryValue e.2 pd itd me
        · rw [stepCol_unchanged cfg pd itd me md acc e h1 h2 h3]
          exact h
        · rw [stepCol_insert cfg pd itd me md acc e h1 h2 h3]
          show (alistGet (alistInsert acc.1 (cfgGet cfg e.1) (entryValue e.2 pd itd me)) c).isSome
          rw [alistGet_alistInsert]
          by_cases h4 : cfgGet cfg e.1 = c
          · rw [if_pos h4]
            rfl
          · rw [if_neg h4]
            exact h

theorem computeUpdates_get_none (cfg : List (String × String)) (pd itd me : Value)
    (md : Metadata) :
    ∀ (cols : List (String × ColMeta)) acc (e : String × ColMeta), e ∈ cols →
      cfgGet cfg e.1 ≠ "" → entryValue e.2 pd itd me ≠ .vnull →
      alistGet ((cols.foldl (stepCol cfg pd itd me md) acc).1) (cfgGet cfg e.1) = none →
      md.mget (cfgGet cfg e.1) = entryValue e.2 pd itd me
  | [], _, e, he, _, _, _ => absurd he (List.not_mem_nil e)
  | e' :: t, acc, e, he, h1, h2, hnone => by
    rw [List.foldl_cons] at hnone
    rcases List.mem_cons.mp he with heq | he'
    · subst heq
      by_cases h3 : md.mget (cfgGet cfg e.1) = entryValue e.2 pd itd me
      · exact h3
      · exfalso
        rw [stepCol_insert cfg pd itd me md acc e h1 h2 h3] at hnone
        have hs : (alistGet (alistInsert acc.1 (cfgGet cfg e.1) (entryValue e.2 pd itd me))
            (cfgGet cfg e.1)).isSome := by
          rw [alistGet_alistInsert, if_pos rfl]
          rfl
        have hper := computeUpdates_get_persist cfg pd itd me md t
          (alistInsert acc.1 (cfgGet cfg e.1) (entryValue e.2 pd itd me),
            acc.2 ++ [(e.2.column_heading, md.mget (cfgGet cfg e.1), entryValue e.2 pd itd me)])
          (cfgGet cfg e.1) hs
        rw [hnone] at hper
        simp at hper
    · exact computeUpdates_get_none cfg pd itd me md t _ e he' h1 h2 hnone

theorem mem_assignedCols (cfg : List (String × String)) (cols : List (String × ColMeta))
    (e : String × ColMeta) (c : String) (he : e ∈ cols) (hc : cfgGet cfg e.1 = c) (hne : c ≠ "") :
    c ∈ assignedCols cols cfg := by
  unfold assignedCols
  refine List.mem_filterMap.mpr ⟨e, he, ?_⟩
  rw [hc, if_neg hne]

theorem assignedCols_unique (cfg : List (String × String)) (pd itd me : Value) :
    ∀ (cols : List (String × ColMeta)), (assignedCols cols cfg).Nodup →
      ∀ e, e ∈ cols → ∀ e', e' ∈ cols → ∀ c : String, c ≠ "" →
      cfgGet cfg e.1 = c → cfgGet cfg e'.1 = c →
      entryValue e.2 pd itd me = entryValue e'.2 pd itd me
  | [], _, e, he, _, _, _, _, _, _ => absurd he (List.not_mem_nil e)
  | h :: t, hnd, e, he, e', he', c, hcne, hc, hc' => by
    have hmemt : ∀ x : String × ColMeta, x ∈ t → cfgGet cfg x.1 = c → c ∈ assignedCols t cfg :=
      fun x hx hxc => mem_assignedCols cfg t x c hx hxc hcne
    rcases List.mem_cons.mp he with heq | het <;> rcases List.mem_cons.mp he' with heq' | het'
    · subst heq
      subst heq'
      rfl
    · subst heq
      exfalso
      have hassigned : assignedCols (e :: t) cfg = c :: assignedCols t cfg := by
        unfold assignedCols
        rw [List.filterMap_cons]
        rw [hc, if_neg hcne]
      rw [hassigned, List.nodup_cons] at hnd
      exact hnd.1 (hmemt e' het' hc')
    · subst heq'
      exfalso
      have hassigned : assignedCols (e' :: t) cfg = c :: assignedCols t cfg := by
        unfold assignedCols
        rw [List.filterMap_cons]
        rw [hc', if_neg hcne]
      rw [hassigned, List.nodup_cons] at hnd
      exact hnd.1 (hmemt e het hc)
    · apply assignedCols_unique cfg pd itd me t ?_ e het e' het' c hcne hc hc'
      unfold assignedCols at hnd
      rw [List.filterMap_cons] at hnd
      rcases hcase : (if cfgGet cfg h.1 = "" then none else some (cfgGet cfg h.1)) with _ | b
      · rw [hcase] at hnd
        exact hnd
      · rw [hcase, List.nodup_cons] at hnd
        exact hnd.2

theorem foldl_fixed {α β : Type} (f : α → β → α) (a : α) :
    ∀ l : List β, (∀ x ∈ l, f a x = a) → l.foldl f a = a
  | [], _ => rfl
  | x :: t, h => by
    rw [List.foldl_cons, h x (List.mem_cons_self x t)]
    exact foldl_fixed f a t (fun y hy => h y (List.mem_cons_of_mem x hy))

theorem get_nested_value_vnull : ∀ p : List String, get_nested_value .vnull p = .vnull
  | [] => rfl
  | _ :: _ => rfl

theorem get_nested_value_not_dict (d : Value) (k : String) (p : List String)
    (h : ∀ m, d ≠ .vdict m) : get_nested_value d (k :: p) = .vnull := by
  cases d with
  | vnull => rfl
  | vbool b => rfl
  | vint n => rfl
  | vstr s => rfl
  | vdict m => exact absurd rfl (h m)
  | vlist l => rfl

theorem get_nested_value_missing (m : List (String × Value)) (k : String) (p : List String)
    (h : alistGet m k = none) : get_nested_value (.vdict m) (k :: p) = .vnull := by
  show get_nested_value ((alistGet m k).getD .vnull) p = .vnull
  rw [h]
  exact get_nested_value_vnull p

theorem lexLe_total : ∀ s t : List Char, lexLe s t = true ∨ lexLe t s = true
  | [], _ => Or.inl rfl
  | _ :: _, [] => Or.inr rfl
  | a :: s, b :: t => by
    rcases lt_trichotomy a b with h | h | h
    · left
      simp [lexLe, h]
    · subst h
      rcases lexLe_total s t with h2 | h2
      · left
        simp [lexLe, lt_irrefl, h2]
      · right
        simp [lexLe, lt_irrefl, h2]
    · right
      simp [lexLe, h]

theorem lexLe_trans : ∀ s t u : List Char, lexLe s t = true → lexLe t u = true → lexLe s u = true
  | [], _, _, _, _ => rfl
  | _ :: _, [], _, h1, _ => by simp [lexLe] at h1
  | _ :: _, _ :: _, [], _, h2 => by simp [lexLe] at h2
  | a :: s, b :: t, c :: u, h1, h2 => by
    rcases lt_trichotomy a b with hab | hab | hab
    · rcases lt_trichotomy b c with hbc | hbc | hbc
      · simp [lexLe, lt_trans hab hbc]
      · subst hbc
        simp [lexLe, hab]
      · rw [lexLe, if_neg (lt_asymm hbc), if_pos hbc] at h2
        exact absurd h2 (by simp)
    · subst hab
      rcases lt_trichotomy a c with hac | hac | hac
      · simp [lexLe, hac]
      · subst hac
        rw [lexLe, if_neg (lt_irrefl a), if_neg (lt_irrefl a)] at h1 h2 ⊢
        exact lexLe_trans s t u h1 h2
      · rw [lexLe, if_neg (lt_asymm hac), if_pos hac] at h2
        exact absurd h2 (by simp)
    · rw [lexLe, if_neg (lt_asymm hab), if_pos hab] at h1
      exact absurd h1 (by simp)

instance linkLeIsTotal (ct : String) (cas : List String) : IsTotal Value (linkLe ct cas) := by
  constructor
  intro a b
  rcases Nat.lt_trichotomy (linkScore ct cas a) (linkScore ct cas b) with h | h | h
  · exact Or.inr (Or.inl h)
  · rcases lexLe_total (lowerTitle a).data (lowerTitle b).data with h2 | h2
    · exact Or.inl (Or.inr ⟨h, h2⟩)
    · exact Or.inr (Or.inr ⟨h.symm, h2⟩)
  · exact Or.inl (Or.inl h)

instance linkLeIsTrans (ct : String) (cas : List String) : IsTrans Value (linkLe ct cas) := by
  constructor
  intro a b c hab hbc
  rcases hab with h1 | ⟨h1, h1'⟩ <;> rcases hbc with h2 | ⟨h2, h2'⟩
  · exact Or.inl (lt_trans h2 h1)
  · exact Or.inl (h2 ▸ h1)
  · exact Or.inl (h1 ▸ h2)
  · exact Or.inr ⟨h1.trans h2, lexLe_trans _ _ _ h1' h2'⟩

theorem foldl_pair_split {α β γ : Type} (f : α → γ → α) (g : β → γ → β) :
    ∀ (l : List γ) (a : α) (b : β),
      l.foldl (fun p x => (f p.1 x, g p.2 x)) (a, b) = (l.foldl f a, l.foldl g b)
  | [], _, _ => rfl
  | x :: t, a, b => by
    rw [List.foldl_cons, List.foldl_cons, List.foldl_cons]
    exact foldl_pair_split f g t (f a x) (g b x)

theorem buildIndexes_eq (items : List Value) :
    buildIndexes items =
      (items.foldl (addToIndex "isbn") [], items.foldl (addToIndex "asin") []) :=
  foldl_pair_split _ _ items [] []

theorem index_fold_get_some (keyName : String) :
    ∀ (items : List Value) (idx : List (Value × List Value)) (b : Value) (l : List Value),
      b.truthy = true → alistGet idx b = some l →
      alistGet (items.foldl (addToIndex keyName) idx) b =
        some (l ++ items.filter (fun it => pyGet (itemMetadata it) keyName .vnull = b))
  | [], _, _, _, _, hget => by simpa using hget
  | item :: t, idx, b, l, hb, hget => by
    rw [List.foldl_cons]
    by_cases hk : pyGet (itemMetadata item) keyName .vnull = b
    · have haddi : addToIndex keyName idx item = alistAppendAt idx b item := by
        simp [addToIndex, hk, hb]
      have hnew : alistGet (alistAppendAt idx b item) b = some (l ++ [item]) := by
        rw [alistGet_alistAppendAt, if_pos rfl, hget]
        rfl
      rw [haddi, index_fold_get_some keyName t _ b (l ++ [item]) hb hnew,
        List.filter_cons_of_pos (by simpa using hk), List.append_assoc]
      rfl
    · have hsame : alistGet (addToIndex keyName idx item) b = some l := by
        simp only [addToIndex]
        by_cases ht : (pyGet (itemMetadata item) keyName .vnull).truthy = true
        · rw [if_pos ht, alistGet_alistAppendAt, if_neg hk]
          exact hget
        · rw [if_neg ht]
          exact hget
      rw [index_fold_get_some keyName t _ b l hb hsame,
        List.filter_cons_of_neg (by simpa using hk)]

theorem index_fold_get_none (keyName : String) :
    ∀ (items : List Value) (idx : List (Value × List Value)) (b : Value),
      b.truthy = true → alistGet idx b = none →
      alistGet (items.foldl (addToIndex keyName) idx) b =
        if (items.filter (fun it => pyGet (itemMetadata it) keyName .vnull = b)) = [] then none
        else some (items.filter (fun it => pyGet (itemMetadata it) keyName .vnull = b))
  | [], _, _, _, hget => by simpa using hget
  | item :: t, idx, b, hb, hget => by
    rw [List.foldl_cons]
    by_cases hk : pyGet (itemMetadata item) keyName .vnull = b
    · have haddi : addToIndex keyName idx item = alistAppendAt idx b item := by
        simp [addToIndex, hk, hb]
      have hnew : alistGet (alistAppendAt idx b item) b = some [item] := by
        rw [alistGet_alistAppendAt, if_pos rfl, hget]
        rfl
      rw [haddi, index_fold_get_some keyName t _ b [item] hb hnew,
        List.filter_cons_of_pos (by simpa using hk)]
      simp
    · have hsame : alistGet (addToIndex keyName idx item) b = none := by
        simp only [addToIndex]
        by_cases ht : (pyGet (itemMetadata item) keyName .vnull).truthy = true
        · rw [if_pos ht, alistGet_alistAppendAt, if_neg hk]
          exact hget
        · rw [if_neg ht]
          exact hget
      rw [index_fold_get_none keyName t _ b hb hsame,
        List.filter_cons_of_neg (by simpa using hk)]

theorem matchedItem_isbn_unique (items : List Value) (aidx : List (Value × List Value))
    (idents : List (String × Value)) (i : Value)
    (hb : (identGet idents "isbn").truthy = true)
    (hf : items.filter
        (fun it => pyGet (itemMetadata it) "isbn" .vnull = identGet idents "isbn") = [i]) :
    matchedItem (items.foldl (addToIndex "isbn") []) aidx idents = some i := by
  have hget : alistGet (items.foldl (addToIndex "isbn") []) (identGet idents "isbn")
      = some [i] := by
    rw [index_fold_get_none "isbn" items [] _ hb rfl, hf]
    simp
  simp [matchedItem, hb, hget]

theorem index_lookup_shape (keyName : String) (items : List Value) (b : Value)
    (hno : ¬ b.truthy = true ∨
      (items.filter (fun it => pyGet (itemMetadata it) keyName .vnull = b)).length ≠ 1) :
    (if b.truthy then alistGet (items.foldl (addToIndex keyName) []) b else none) = none ∨
    ∃ x y ys, (if b.truthy then alistGet (items.foldl (addToIndex keyName) []) b else none)
      = some (x :: y :: ys) := by
  by_cases hb : b.truthy = true
  · have hget := index_fold_get_none keyName items [] b hb rfl
    rcases hcase : items.filter (fun it => pyGet (itemMetadata it) keyName .vnull = b)
      with _ | ⟨x, xs⟩
    · left
      rw [if_pos hb, hget, hcase]
      simp
    · rcases xs with _ | ⟨y, ys⟩
      · rw [hcase] at hno
        rcases hno with hno | hno
        · exact absurd hb hno
        · simp at hno
      · right
        refine ⟨x, y, ys, ?_⟩
        rw [if_pos hb, hget, hcase]
        simp
  · left
    rw [if_neg hb]

theorem matchedItem_asin_unique (items : List Value) (idents : List (String × Value)) (i : Value)
    (hno : ¬ (identGet idents "isbn").truthy = true ∨
      (items.filter
        (fun it => pyGet (itemMetadata it) "isbn" .vnull = identGet idents "isbn")).length ≠ 1)
    (ha : (identGet idents "asin").truthy = true)
    (hf : items.filter
        (fun it => pyGet (itemMetadata it) "asin" .vnull = identGet idents "asin") = [i]) :
    matchedItem (items.foldl (addToIndex "isbn") []) (items.foldl (addToIndex "asin") [])
      idents = some i := by
  have hgeta : alistGet (items.foldl (addToIndex "asin") []) (identGet idents "asin")
      = some [i] := by
    rw [index_fold_get_none "asin" items [] _ ha rfl, hf]
    simp
  rcases index_lookup_shape "isbn" items (identGet idents "isbn") hno with hsh | ⟨x, y, ys, hsh⟩
  · simp only [matchedItem, hsh]
    simp [ha, hgeta]
  · simp only [matchedItem, hsh]
    simp [ha, hgeta]

theorem matchedItem_no_match (items : List Value) (idents : List (String × Value))
    (hno : ¬ (identGet idents "isbn").truthy = true ∨
      (items.filter
        (fun it => pyGet (itemMetadata it) "isbn" .vnull = identGet idents "isbn")).length ≠ 1)
    (hna : ¬ (identGet idents "asin").truthy = true ∨
      (items.filter
        (fun it => pyGet (itemMetadata it) "asin" .vnull = identGet idents "asin")).length ≠ 1) :
    matchedItem (items.foldl (addToIndex "isbn") []) (items.foldl (addToIndex "asin") [])
      idents = none := by
  rcases index_lookup_shape "isbn" items (identGet idents "isbn") hno with hsh | ⟨x, y, ys, hsh⟩ <;>
    rcases index_lookup_shape "asin" items (identGet idents "asin") hna with hsa | ⟨z, w, ws, hsa⟩ <;>
    · simp only [matchedItem, hsh, hsa]

theorem quickLinkStep_already_linked (iidx aidx : List (Value × List Value)) (st : QLState)
    (bid : Nat) (metadata : Metadata) (hmd : st.db.getMetadata bid = some metadata)
    (h : (alistGet metadata.identifiers "audiobookshelf_id").isSome = true) :
    quickLinkStep iidx aidx st bid = st := by
  simp [quickLinkStep, hmd, h]

theorem quickLinkStep_matched (iidx aidx : List (Value × List Value)) (st : QLState)
    (bid : Nat) (metadata : Metadata) (it : Value)
    (hmd : st.db.getMetadata bid = some metadata)
    (hnl : ¬ (alistGet metadata.identifiers "audiobookshelf_id").isSome = true)
    (hmi : matchedItem iidx aidx metadata.identifiers = some it) :
    quickLinkStep iidx aidx st bid =
      { st with
        db := st.db.setMetadata bid { metadata with identifiers := alistInsert metadata.identifiers "audiobookshelf_id" (pyGet it "id" .vnull) }
        num_linked := st.num_linked + 1
        results := st.results ++ [⟨metadata.title, some ("Linked to \"" ++ asStr (pyGet (itemMetadata it) "title" (.vstr "Unknown Title")) "Unknown Title" ++ "\""), none⟩] } := by
  simp [quickLinkStep, hmd, hnl, hmi]

theorem quickLinkStep_nomatch (iidx aidx : List (Value × List Value)) (st : QLState)
    (bid : Nat) (metadata : Metadata)
    (hmd : st.db.getMetadata bid = some metadata)
    (hnl : ¬ (alistGet metadata.identifiers "audiobookshelf_id").isSome = true)
    (hmi : matchedItem iidx aidx metadata.identifiers = none) :
    quickLinkStep iidx aidx st bid =
      { st with
        num_failed := st.num_failed + 1
        results := st.results ++ [⟨metadata.title, none, some "No unique match found"⟩] } := by
  simp [quickLinkStep, hmd, hnl, hmi]

theorem syncStep_unlinked (cols : List (String × ColMeta)) (cfg : List (String × String))
    (items_dict media_progress_dict : List (Value × Value)) (me_data : Value)
    (st : SyncState) (bid : Nat) (metadata : Metadata)
    (hmd : st.db.getMetadata bid = some metadata)
    (h : ¬ (identGet metadata.identifiers "audiobookshelf_id").truthy = true) :
    syncStep cols cfg items_dict media_progress_dict me_data st bid = st := by
  simp [syncStep, hmd, h]

theorem syncStep_notfound (cols : List (String × ColMeta)) (cfg : List (String × String))
    (items_dict media_progress_dict : List (Value × Value)) (me_data : Value)
    (st : SyncState) (bid : Nat) (metadata : Metadata)
    (hmd : st.db.getMetadata bid = some metadata)
    (htr : (identGet metadata.identifiers "audiobookshelf_id").truthy = true)
    (hnone : alistGet items_dict (identGet metadata.identifiers "audiobookshelf_id") = none) :
    syncStep cols cfg items_dict media_progress_dict me_data st bid =
      { st with
        results := st.results ++ [⟨metadata.title, [], some "Audiobookshelf item not found"⟩]
        num_skip := st.num_skip + 1 } := by
  simp [syncStep, hmd, htr, hnone, show Value.truthy .vnull = false from rfl]

theorem syncStep_counts (cols : List (String × ColMeta)) (cfg : List (String × String))
    (items_dict media_progress_dict : List (Value × Value)) (me_data : Value)
    (st : SyncState) (bid : Nat)
    (h : st.num_success + st.num_fail + st.num_skip = st.results.length) :
    (syncStep cols cfg items_dict media_progress_dict me_data st bid).num_success +
      (syncStep cols cfg items_dict media_progress_dict me_data st bid).num_fail +
      (syncStep cols cfg items_dict media_progress_dict me_data st bid).num_skip =
      (syncStep cols cfg items_dict media_progress_dict me_data st bid).results.length := by
  unfold syncStep
  cases hmd : st.db.getMetadata bid with
  | none => exact h
  | some metadata =>
    simp only []
    split
    · exact h
    · split
      · simp
        omega
      · split
        · split
          · simp
            omega
          · simp
            omega
        · simp
          omega

theorem sync_counts_fold (cols : List (String × ColMeta)) (cfg : List (String × String))
    (items_dict media_progress_dict : List (Value × Value)) (me_data : Value) :
    ∀ (ids : List Nat) (st : SyncState),
      st.num_success + st.num_fail + st.num_skip = st.results.length →
      (ids.foldl (syncStep cols cfg items_dict media_progress_dict me_data) st).num_success +
        (ids.foldl (syncStep cols cfg items_dict media_progress_dict me_data) st).num_fail +
        (ids.foldl (syncStep cols cfg items_dict media_progress_dict me_data) st).num_skip =
        (ids.foldl (syncStep cols cfg items_dict media_progress_dict me_data) st).results.length
  | [], _, h => h
  | bid :: t, st, h => by
    rw [List.foldl_cons]
    exact sync_counts_fold cols cfg items_dict media_progress_dict me_data t _
      (syncStep_counts cols cfg items_dict media_progress_dict me_data st bid h)

/-- C1 counterexample: with no progress record at all for the linked item
(the progress index is empty), extraction of "Audiobook Started" from the
empty fallback dict yields null, yet the code still defaults the value to
`True` and includes the field in the UpdateSet (and writes it), contradicting
the claim that the default applies only when a progress record exists. -/
theorem c1_counterexample :
    (buildProgressDict (.vdict [("mediaProgress", .vlist [])]) = []) ∧
    ((sync_from_audiobookshelf
        [("checkbox_started", ⟨"Audiobook Started", ["isFinished"], "mediaProgress", none⟩)]
        [("checkbox_started", "#abs_started")]
        ⟨[(1, ⟨"u1", "Book One", [], [("audiobookshelf_id", .vstr "i1")], []⟩)]⟩
        (.vlist [.vdict [("id", .vstr "i1")]])
        (.vdict [("mediaProgress", .vlist [])])).db.getMetadata 1).map (fun m => m.mget "#abs_started")
      = some (.vbool true) ∧
    (computeUpdates
        [("checkbox_started", ⟨"Audiobook Started", ["isFinished"], "mediaProgress", none⟩)]
        [("checkbox_started", "#abs_started")] (.vdict []) (.vdict [("id", .vstr "i1")])
        (.vdict [("mediaProgress", .vlist [])])
        ⟨"u1", "Book One", [], [("audiobookshelf_id", .vstr "i1")], []⟩).1
      = [("#abs_started", .vbool true)] := by
  decide

/-- C1 amended: for a "Audiobook Started" column read from the mediaProgress
source, whenever path extraction over the (possibly defaulted-to-empty)
progress dict yields null, the extracted value is defaulted to `True` -
regardless of whether a progress record for the item exists. -/
theorem c1_started_default (cm : ColMeta) (progress_data item_data me_data : Value)
    (h1 : cm.api_source = "mediaProgress") (h2 : cm.column_heading = "Audiobook Started")
    (h3 : get_nested_value progress_data cm.data_location = .vnull) :
    extractRaw cm progress_data item_data me_data = .vbool true := by
  simp [extractRaw, h1, h2, h3]

/-- C1 witness: the amended default theorem at a concrete column and empty
progress dict. -/
theorem c1_started_default_witness :
    extractRaw ⟨"Audiobook Started", ["isFinished"], "mediaProgress", none⟩
      (.vdict []) .vnull .vnull = .vbool true :=
  c1_started_default ⟨"Audiobook Started", ["isFinished"], "mediaProgress", none⟩
    (.vdict []) .vnull .vnull rfl rfl (by decide)

/-- C2: every pair in a computed UpdateSet has a non-null value that differs
from the record's pre-run value for that key; in particular the UpdateSet
never contains a key whose value equals the record's current value. -/
theorem c2_updateset_minimal (cols : List (String × ColMeta)) (cfg : List (String × String))
    (pd itd me : Value) (md : Metadata) (k : String) (v : Value)
    (hm : (k, v) ∈ (computeUpdates cols cfg pd itd me md).1) :
    v ≠ .vnull ∧ md.mget k ≠ v := by
  rcases mem_computeUpdates_fold cfg pd itd me md cols ([], []) (k, v) hm with h | h
  · simp at h
  · obtain ⟨e, _, _, _, _, hvn, hne⟩ := h
    exact ⟨hvn, hne⟩

/-- C2 witness: the minimality property at a concrete configuration and
record. -/
theorem c2_updateset_minimal_witness :
    (Value.vint 5 ≠ .vnull) ∧ (⟨"u", "t", [], [], []⟩ : Metadata).mget "#c" ≠ .vint 5 :=
  c2_updateset_minimal [("a", ⟨"H", ["x"], "lib_items", none⟩)] [("a", "#c")]
    (.vdict []) (.vdict [("x", .vint 5)]) .vnull ⟨"u", "t", [], [], []⟩ "#c" (.vint 5)
    (by decide)

/-- C3: (a) a record whose identifiers already contain `audiobookshelf_id`
is left untouched by a quick-link step; (b) an unlinked record whose truthy
isbn is shared by exactly one remote item is linked to that item, and the
outcome does not consult the asin index at all; (c) when the isbn test
fails (identifier falsy or not exactly one sharer) and the truthy asin is
shared by exactly one remote item, the record is linked to that item. -/
theorem c3_autolinker :
    (∀ (iidx aidx : List (Value × List Value)) (st : QLState) (bid : Nat) (metadata : Metadata),
      st.db.getMetadata bid = some metadata →
      (alistGet metadata.identifiers "audiobookshelf_id").isSome = true →
      quickLinkStep iidx aidx st bid = st) ∧
    (∀ (items : List Value) (aidx aidx' : List (Value × List Value)) (st : QLState) (bid : Nat)
        (metadata : Metadata) (i : Value),
      st.db.getMetadata bid = some metadata →
      ¬ (alistGet metadata.identifiers "audiobookshelf_id").isSome = true →
      (identGet metadata.identifiers "isbn").truthy = true →
      items.filter (fun it => pyGet (itemMetadata it) "isbn" .vnull = identGet metadata.identifiers "isbn") = [i] →
      (quickLinkStep (buildIndexes items).1 aidx st bid =
        { st with
          db := st.db.setMetadata bid { metadata with identifiers := alistInsert metadata.identifiers "audiobookshelf_id" (pyGet i "id" .vnull) }
          num_linked := st.num_linked + 1
          results := st.results ++ [⟨metadata.title, some ("Linked to \"" ++ asStr (pyGet (itemMetadata i) "title" (.vstr "Unknown Title")) "Unknown Title" ++ "\""), none⟩] } ∧
        quickLinkStep (buildIndexes items).1 aidx st bid =
          quickLinkStep (buildIndexes items).1 aidx' st bid)) ∧
    (∀ (items : List Value) (st : QLState) (bid : Nat) (metadata : Metadata) (i : Value),
      st.db.getMetadata bid = some metadata →
      ¬ (alistGet metadata.identifiers "audiobookshelf_id").isSome = true →
      (¬ (identGet metadata.identifiers "isbn").truthy = true ∨
        (items.filter (fun it => pyGet (itemMetadata it) "isbn" .vnull = identGet metadata.identifiers "isbn")).length ≠ 1) →
      (identGet metadata.identifiers "asin").truthy = true →
      items.filter (fun it => pyGet (itemMetadata it) "asin" .vnull = identGet metadata.identifiers "asin") = [i] →
      quickLinkStep (buildIndexes items).1 (buildIndexes items).2 st bid =
        { st with
          db := st.db.setMetadata bid { metadata with identifiers := alistInsert metadata.identifiers "audiobookshelf_id" (pyGet i "id" .vnull) }
          num_linked := st.num_linked + 1
          results := st.results ++ [⟨metadata.title, some ("Linked to \"" ++ asStr (pyGet (itemMetadata i) "title" (.vstr "Unknown Title")) "Unknown Title" ++ "\""), none⟩] }) := by
  refine ⟨?_, ?_, ?_⟩
  · intro iidx aidx st bid metadata hmd h
    exact quickLinkStep_already_linked iidx aidx st bid metadata hmd h
  · intro items aidx aidx' st bid metadata i hmd hnl hb hf
    have h1 : (buildIndexes items).1 = items.foldl (addToIndex "isbn") [] := by
      rw [buildIndexes_eq]
    have hmi : matchedItem (buildIndexes items).1 aidx metadata.identifiers = some i := by
      rw [h1]
      exact matchedItem_isbn_unique items aidx metadata.identifiers i hb hf
    have hmi' : matchedItem (buildIndexes items).1 aidx' metadata.identifiers = some i := by
      rw [h1]
      exact matchedItem_isbn_unique items aidx' metadata.identifiers i hb hf
    refine ⟨quickLinkStep_matched _ _ _ _ _ _ hmd hnl hmi, ?_⟩
    rw [quickLinkStep_matched _ _ _ _ _ _ hmd hnl hmi,
      quickLinkStep_matched _ _ _ _ _ _ hmd hnl hmi']
  · intro items st bid metadata i hmd hnl hno ha hf
    have h1 : (buildIndexes items).1 = items.foldl (addToIndex "isbn") [] := by
      rw [buildIndexes_eq]
    have h2 : (buildIndexes items).2 = items.foldl (addToIndex "asin") [] := by
      rw [buildIndexes_eq]
    have hmi : matchedItem (buildIndexes items).1 (buildIndexes items).2 metadata.identifiers
        = some i := by
      rw [h1, h2]
      exact matchedItem_asin_unique items metadata.identifiers i hno ha hf
    exact quickLinkStep_matched _ _ _ _ _ _ hmd hnl hmi

/-- C3 witness: the three auto-linker cases at concrete records and items. -/
theorem c3_autolinker_witness :
    (quickLinkStep [] [] ⟨⟨[(1, ⟨"u", "T", [], [("audiobookshelf_id", .vstr "x")], []⟩)]⟩, 0, 0, []⟩ 1
      = ⟨⟨[(1, ⟨"u", "T", [], [("audiobookshelf_id", .vstr "x")], []⟩)]⟩, 0, 0, []⟩) ∧
    (quickLinkStep (buildIndexes [.vdict [("id", .vstr "iA"), ("media", .vdict [("metadata", .vdict [("title", .vstr "T"), ("isbn", .vstr "123")])])]]).1 []
        ⟨⟨[(2, ⟨"uq", "BQ", [], [("isbn", .vstr "123")], []⟩)]⟩, 0, 0, []⟩ 2 =
      { (⟨⟨[(2, ⟨"uq", "BQ", [], [("isbn", .vstr "123")], []⟩)]⟩, 0, 0, []⟩ : QLState) with
        db := (⟨⟨[(2, ⟨"uq", "BQ", [], [("isbn", .vstr "123")], []⟩)]⟩, 0, 0, []⟩ : QLState).db.setMetadata 2 { (⟨"uq", "BQ", [], [("isbn", .vstr "123")], []⟩ : Metadata) with identifiers := alistInsert [("isbn", .vstr "123")] "audiobookshelf_id" (pyGet (.vdict [("id", .vstr "iA"), ("media", .vdict [("metadata", .vdict [("title", .vstr "T"), ("isbn", .vstr "123")])])]) "id" .vnull) }
        num_linked := 0 + 1
        results := [] ++ [⟨"BQ", some ("Linked to \"" ++ asStr (pyGet (itemMetadata (.vdict [("id", .vstr "iA"), ("media", .vdict [("metadata", .vdict [("title", .vstr "T"), ("isbn", .vstr "123")])])])) "title" (.vstr "Unknown Title")) "Unknown Title" ++ "\""), none⟩] }) ∧
    (quickLinkStep (buildIndexes [.vdict [("id", .vstr "iB"), ("media", .vdict [("metadata", .vdict [("title", .vstr "S"), ("asin", .vstr "A77")])])]]).1
        (buildIndexes [.vdict [("id", .vstr "iB"), ("media", .vdict [("metadata", .vdict [("title", .vstr "S"), ("asin", .vstr "A77")])])]]).2
        ⟨⟨[(3, ⟨"ur", "BR", [], [("asin", .vstr "A77")], []⟩)]⟩, 0, 0, []⟩ 3 =
      { (⟨⟨[(3, ⟨"ur", "BR", [], [("asin", .vstr "A77")], []⟩)]⟩, 0, 0, []⟩ : QLState) with
        db := (⟨⟨[(3, ⟨"ur", "BR", [], [("asin", .vstr "A77")], []⟩)]⟩, 0, 0, []⟩ : QLState).db.setMetadata 3 { (⟨"ur", "BR", [], [("asin", .vstr "A77")], []⟩ : Metadata) with identifiers := alistInsert [("asin", .vstr "A77")] "audiobookshelf_id" (pyGet (.vdict [("id", .vstr "iB"), ("media", .vdict [("metadata", .vdict [("title", .vstr "S"), ("asin", .vstr "A77")])])]) "id" .vnull) }
        num_linked := 0 + 1
        results := [] ++ [⟨"BR", some ("Linked to \"" ++ asStr (pyGet (itemMetadata (.vdict [("id", .vstr "iB"), ("media", .vdict [("metadata", .vdict [("title", .vstr "S"), ("asin", .vstr "A77")])])])) "title" (.vstr "Unknown Title")) "Unknown Title" ++ "\""), none⟩] }) := by
  refine ⟨?_, ?_, ?_⟩
  · exact c3_autolinker.1 [] [] _ 1 ⟨"u", "T", [], [("audiobookshelf_id", .vstr "x")], []⟩
      (by decide) (by decide)
  · exact (c3_autolinker.2.1 [.vdict [("id", .vstr "iA"), ("media", .vdict [("metadata", .vdict [("title", .vstr "T"), ("isbn", .vstr "123")])])]] [] []
      ⟨⟨[(2, ⟨"uq", "BQ", [], [("isbn", .vstr "123")], []⟩)]⟩, 0, 0, []⟩ 2
      ⟨"uq", "BQ", [], [("isbn", .vstr "123")], []⟩
      (.vdict [("id", .vstr "iA"), ("media", .vdict [("metadata", .vdict [("title", .vstr "T"), ("isbn", .vstr "123")])])])
      (by decide) (by decide) (by decide) (by decide)).1
  · exact c3_autolinker.2.2 [.vdict [("id", .vstr "iB"), ("media", .vdict [("metadata", .vdict [("title", .vstr "S"), ("asin", .vstr "A77")])])]]
      ⟨⟨[(3, ⟨"ur", "BR", [], [("asin", .vstr "A77")], []⟩)]⟩, 0, 0, []⟩ 3
      ⟨"ur", "BR", [], [("asin", .vstr "A77")], []⟩
      (.vdict [("id", .vstr "iB"), ("media", .vdict [("metadata", .vdict [("title", .vstr "S"), ("asin", .vstr "A77")])])])
      (by decide) (by decide) (Or.inl (by decide)) (by decide) (by decide)

/-- C4 counterexample: a non-matching unlinked record is tallied in the
failed counter of the quick-link report (there is no skip tally at all in
that report), refuting the claim that a non-match is counted as a skip and
not as a failure. -/
theorem c4_counterexample :
    (quick_link_books ⟨[(1, ⟨"u4", "Book Four", [], [("isbn", .vstr "999")], []⟩)]⟩ (.vlist [])).num_failed = 1 ∧
    (quick_link_books ⟨[(1, ⟨"u4", "Book Four", [], [("isbn", .vstr "999")], []⟩)]⟩ (.vlist [])).num_linked = 0 ∧
    (quick_link_books ⟨[(1, ⟨"u4", "Book Four", [], [("isbn", .vstr "999")], []⟩)]⟩ (.vlist [])).results
      = [⟨"Book Four", none, some "No unique match found"⟩] := by
  decide

/-- C4 amended: an unlinked record for which neither the isbn nor the asin
test yields a unique remote match is left unlinked (the library, hence its
identifiers, is unchanged) and is recorded with a "No unique match found"
error detail, counted in the failed tally of the run report. -/
theorem c4_no_unique_match (items : List Value) (st : QLState) (bid : Nat) (metadata : Metadata)
    (hmd : st.db.getMetadata bid = some metadata)
    (hnl : ¬ (alistGet metadata.identifiers "audiobookshelf_id").isSome = true)
    (hisbn : ¬ (identGet metadata.identifiers "isbn").truthy = true ∨
      (items.filter (fun it => pyGet (itemMetadata it) "isbn" .vnull = identGet metadata.identifiers "isbn")).length ≠ 1)
    (hasin : ¬ (identGet metadata.identifiers "asin").truthy = true ∨
      (items.filter (fun it => pyGet (itemMetadata it) "asin" .vnull = identGet metadata.identifiers "asin")).length ≠ 1) :
    quickLinkStep (buildIndexes items).1 (buildIndexes items).2 st bid =
      { st with
        num_failed := st.num_failed + 1
        results := st.results ++ [⟨metadata.title, none, some "No unique match found"⟩] } := by
  have h1 : (buildIndexes items).1 = items.foldl (addToIndex "isbn") [] := by
    rw [buildIndexes_eq]
  have h2 : (buildIndexes items).2 = items.foldl (addToIndex "asin") [] := by
    rw [buildIndexes_eq]
  have hmi : matchedItem (buildIndexes items).1 (buildIndexes items).2 metadata.identifiers
      = none := by
    rw [h1, h2]
    exact matchedItem_no_match items metadata.identifiers hisbn hasin
  exact quickLinkStep_nomatch _ _ _ _ _ hmd hnl hmi

/-- C4 witness: the amended no-unique-match behaviour at a concrete record
with no matching remote item. -/
theorem c4_no_unique_match_witness :
    quickLinkStep (buildIndexes []).1 (buildIndexes []).2
      ⟨⟨[(1, ⟨"u4", "Book Four", [], [("isbn", .vstr "999")], []⟩)]⟩, 0, 0, []⟩ 1 =
      { (⟨⟨[(1, ⟨"u4", "Book Four", [], [("isbn", .vstr "999")], []⟩)]⟩, 0, 0, []⟩ : QLState) with
        num_failed := 0 + 1
        results := [] ++ [⟨"Book Four", none, some "No unique match found"⟩] } :=
  c4_no_unique_match [] ⟨⟨[(1, ⟨"u4", "Book Four", [], [("isbn", .vstr "999")], []⟩)]⟩, 0, 0, []⟩ 1
    ⟨"u4", "Book Four", [], [("isbn", .vstr "999")], []⟩
    (by decide) (by decide) (Or.inr (by decide)) (Or.inr (by decide))

/-- C5: after a sync run, updated + failed + skipped equals the number of
per-record report entries; and a book with no truthy `audiobookshelf_id`
identifier leaves the running state (counters, report and library) fully
unchanged, so unlinked records are excluded from the total and produce no
entry. -/
theorem c5_report_counts (cols : List (String × ColMeta)) (cfg : List (String × String))
    (db : Library) (items_data me_data : Value) :
    ((sync_from_audiobookshelf cols cfg db items_data me_data).num_success +
      (sync_from_audiobookshelf cols cfg db items_data me_data).num_fail +
      (sync_from_audiobookshelf cols cfg db items_data me_data).num_skip =
      (sync_from_audiobookshelf cols cfg db items_data me_data).results.length) ∧
    (∀ (st : SyncState) (bid : Nat) (metadata : Metadata),
      st.db.getMetadata bid = some metadata →
      ¬ (identGet metadata.identifiers "audiobookshelf_id").truthy = true →
      syncStep cols cfg (buildItemsDict (unwrapItems items_data)) (buildProgressDict me_data)
        me_data st bid = st) := by
  constructor
  · exact sync_counts_fold cols cfg (buildItemsDict (unwrapItems items_data))
      (buildProgressDict me_data) me_data (db.books.map (fun b => b.1)) ⟨db, 0, 0, 0, []⟩ rfl
  · intro st bid metadata hmd h
    exact syncStep_unlinked cols cfg _ _ me_data st bid metadata hmd h

/-- C5 witness: the counting identity on a concrete two-book library (one
linked and found, one unlinked) and the unchanged-state fact for the
unlinked book. -/
theorem c5_report_counts_witness :
    ((sync_from_audiobookshelf [] []
        ⟨[(1, ⟨"u1", "A", [], [("audiobookshelf_id", .vstr "i1")], []⟩), (2, ⟨"u2", "B", [], [], []⟩)]⟩
        (.vlist [.vdict [("id", .vstr "i1")]]) (.vdict [])).num_success +
      (sync_from_audiobookshelf [] []
        ⟨[(1, ⟨"u1", "A", [], [("audiobookshelf_id", .vstr "i1")], []⟩), (2, ⟨"u2", "B", [], [], []⟩)]⟩
        (.vlist [.vdict [("id", .vstr "i1")]]) (.vdict [])).num_fail +
      (sync_from_audiobookshelf [] []
        ⟨[(1, ⟨"u1", "A", [], [("audiobookshelf_id", .vstr "i1")], []⟩), (2, ⟨"u2", "B", [], [], []⟩)]⟩
        (.vlist [.vdict [("id", .vstr "i1")]]) (.vdict [])).num_skip =
      (sync_from_audiobookshelf [] []
        ⟨[(1, ⟨"u1", "A", [], [("audiobookshelf_id", .vstr "i1")], []⟩), (2, ⟨"u2", "B", [], [], []⟩)]⟩
        (.vlist [.vdict [("id", .vstr "i1")]]) (.vdict [])).results.length) ∧
    (syncStep [] [] (buildItemsDict (unwrapItems (.vlist [.vdict [("id", .vstr "i1")]])))
        (buildProgressDict (.vdict [])) (.vdict [])
        ⟨⟨[(2, ⟨"u2", "B", [], [], []⟩)]⟩, 0, 0, 0, []⟩ 2 =
      ⟨⟨[(2, ⟨"u2", "B", [], [], []⟩)]⟩, 0, 0, 0, []⟩) :=
  ⟨(c5_report_counts [] [] ⟨[(1, ⟨"u1", "A", [], [("audiobookshelf_id", .vstr "i1")], []⟩), (2, ⟨"u2", "B", [], [], []⟩)]⟩ (.vlist [.vdict [("id", .vstr "i1")]]) (.vdict [])).1,
    (c5_report_counts [] [] ⟨[(1, ⟨"u1", "A", [], [("audiobookshelf_id", .vstr "i1")], []⟩), (2, ⟨"u2", "B", [], [], []⟩)]⟩ (.vlist [.vdict [("id", .vstr "i1")]]) (.vdict [])).2
      ⟨⟨[(2, ⟨"u2", "B", [], [], []⟩)]⟩, 0, 0, 0, []⟩ 2 ⟨"u2", "B", [], [], []⟩
      (by decide) (by decide)⟩

/-- C6 counterexample: two mapping entries configured to the same column
"#c" with different computed values. The first pass computes an UpdateSet,
its apply step succeeds, yet the second pass over the updated record is not
empty - it flips the column back - refuting unconditional idempotence. -/
theorem c6_counterexample :
    ((computeUpdates [("a", ⟨"H1", ["x"], "lib_items", none⟩), ("b", ⟨"H2", ["y"], "lib_items", none⟩)]
        [("a", "#c"), ("b", "#c")] (.vdict []) (.vdict [("x", .vint 1), ("y", .vint 2)]) .vnull
        ⟨"u6", "B6", [], [], []⟩).1 = [("#c", .vint 2)]) ∧
    ((update_metadata ⟨[(1, ⟨"u6", "B6", [], [], []⟩)]⟩ "u6" [("#c", .vint 2)]).ok = true) ∧
    ((update_metadata ⟨[(1, ⟨"u6", "B6", [], [], []⟩)]⟩ "u6" [("#c", .vint 2)]).db.getMetadata 1
      = some ⟨"u6", "B6", [], [], [("#c", .vint 2)]⟩) ∧
    ((computeUpdates [("a", ⟨"H1", ["x"], "lib_items", none⟩), ("b", ⟨"H2", ["y"], "lib_items", none⟩)]
        [("a", "#c"), ("b", "#c")] (.vdict []) (.vdict [("x", .vint 1), ("y", .vint 2)]) .vnull
        ⟨"u6", "B6", [], [], [("#c", .vint 2)]⟩).1 = [("#c", .vint 1)]) := by
  decide

/-- C6 amended: reconciliation is idempotent whenever the configured
destination columns of the mapping entries are pairwise distinct: after the
per-key apply loop of a first pass, a second pass over the updated record
with the same remote data computes an empty UpdateSet (and an empty change
log). -/
theorem c6_idempotent (cols : List (String × ColMeta)) (cfg : List (String × String))
    (pd itd me : Value) (md : Metadata)
    (hnd : (assignedCols cols cfg).Nodup) :
    computeUpdates cols cfg pd itd me
      ((applyKVs md (computeUpdates cols cfg pd itd me md).1).1) = ([], []) := by
  have hknd : (((computeUpdates cols cfg pd itd me md).1).map Prod.fst).Nodup :=
    keys_nodup_computeUpdates_fold cfg pd itd me md cols ([], []) (by simp)
  have key : ∀ e, e ∈ cols → cfgGet cfg e.1 ≠ "" → entryValue e.2 pd itd me ≠ .vnull →
      ((applyKVs md (computeUpdates cols cfg pd itd me md).1).1).mget (cfgGet cfg e.1)
        = entryValue e.2 pd itd me := by
    intro e he h1 h2
    cases hget : alistGet (computeUpdates cols cfg pd itd me md).1 (cfgGet cfg e.1) with
    | some v =>
      have hm := mem_of_alistGet_eq_some _ _ _ hget
      rcases mem_computeUpdates_fold cfg pd itd me md cols ([], []) _ hm with hmem | hmem
      · simp at hmem
      · obtain ⟨e', he', hc', hcne', hv', hvn', hmg'⟩ := hmem
        have huniq := assignedCols_unique cfg pd itd me cols hnd e' he' e he (cfgGet cfg e.1)
          h1 hc'.symm rfl
        have hmget : ((applyKVs md (computeUpdates cols cfg pd itd me md).1).1).mget
            (cfgGet cfg e.1) = v :=
          applyKV_fold_mget_mem _ (md, []) _ _ hknd hm
        rw [hmget]
        have hv2 : v = entryValue e'.2 pd itd me := hv'
        rw [hv2]
        exact huniq
    | none =>
      have hmd0 := computeUpdates_get_none cfg pd itd me md cols ([], []) e he h1 h2 hget
      have hnotin : cfgGet cfg e.1 ∉ ((computeUpdates cols cfg pd itd me md).1).map Prod.fst :=
        (alistGet_eq_none _ _).mp hget
      have hsame := applyKV_fold_mget_not_mem (computeUpdates cols cfg pd itd me md).1
        (md, []) (cfgGet cfg e.1) hnotin
      exact hsame.trans hmd0
  unfold computeUpdates
  apply foldl_fixed
  intro e he
  by_cases h1 : cfgGet cfg e.1 = ""
  · exact stepCol_unconfigured cfg pd itd me _ ([], []) e h1
  · by_cases h2 : entryValue e.2 pd itd me = .vnull
    · exact stepCol_null cfg pd itd me _ ([], []) e h1 h2
    · exact stepCol_unchanged cfg pd itd me _ ([], []) e h1 h2 (key e he h1 h2)

/-- C6 witness: idempotence at a concrete configuration with two entries
mapped to two distinct columns. -/
theorem c6_idempotent_witness :
    computeUpdates [("a", ⟨"H1", ["x"], "lib_items", none⟩), ("b", ⟨"H2", ["y"], "lib_items", none⟩)]
      [("a", "#c"), ("b", "#d")] (.vdict []) (.vdict [("x", .vint 1), ("y", .vint 2)]) .vnull
      ((applyKVs ⟨"u6", "B6", [], [], []⟩
        (computeUpdates [("a", ⟨"H1", ["x"], "lib_items", none⟩), ("b", ⟨"H2", ["y"], "lib_items", none⟩)]
          [("a", "#c"), ("b", "#d")] (.vdict []) (.vdict [("x", .vint 1), ("y", .vint 2)]) .vnull
          ⟨"u6", "B6", [], [], []⟩).1).1) = ([], []) :=
  c6_idempotent [("a", ⟨"H1", ["x"], "lib_items", none⟩), ("b", ⟨"H2", ["y"], "lib_items", none⟩)]
    [("a", "#c"), ("b", "#d")] (.vdict []) (.vdict [("x", .vint 1), ("y", .vint 2)]) .vnull
    ⟨"u6", "B6", [], [], []⟩ (by decide)

/-- C7: nested-value extraction returns null as soon as a key is missing at
a dict step or the current value is not a dict at all (it is a total
function, so no error is possible); a null extraction yields a null entry
value, and a null entry value leaves the UpdateSet untouched. -/
theorem c7_null_extraction :
    (∀ (m : List (String × Value)) (k : String) (p : List String),
      alistGet m k = none → get_nested_value (.vdict m) (k :: p) = .vnull) ∧
    (∀ (d : Value) (k : String) (p : List String), (∀ mm, d ≠ .vdict mm) →
      get_nested_value d (k :: p) = .vnull) ∧
    (∀ (cm : ColMeta) (pd itd me : Value), extractRaw cm pd itd me = .vnull →
      entryValue cm pd itd me = .vnull) ∧
    (∀ (cfg : List (String × String)) (pd itd me : Value) (md : Metadata)
        (acc : List (String × Value) × List (String × Value × Value)) (e : String × ColMeta),
      entryValue e.2 pd itd me = .vnull → stepCol cfg pd itd me md acc e = acc) := by
  refine ⟨get_nested_value_missing, get_nested_value_not_dict, ?_, ?_⟩
  · intro cm pd itd me h
    simp [entryValue, h]
  · intro cfg pd itd me md acc e h
    by_cases h1 : cfgGet cfg e.1 = ""
    · exact stepCol_unconfigured cfg pd itd me md acc e h1
    · exact stepCol_null cfg pd itd me md acc e h1 h

/-- C7 witness: the null-propagation cases at concrete data. -/
theorem c7_null_extraction_witness :
    (get_nested_value (.vdict [("a", .vint 1)]) ["b"] = .vnull) ∧
    (get_nested_value (.vint 3) ["k"] = .vnull) ∧
    (entryValue ⟨"H", ["x"], "mediaProgress", none⟩ (.vdict []) .vnull .vnull = .vnull) ∧
    (stepCol [("a", "#c")] (.vdict []) .vnull .vnull ⟨"u", "t", [], [], []⟩ ([], [])
      ("a", ⟨"H", ["x"], "mediaProgress", none⟩) = ([], [])) := by
  refine ⟨?_, ?_, ?_, ?_⟩
  · exact c7_null_extraction.1 [("a", .vint 1)] "b" [] (by decide)
  · exact c7_null_extraction.2.1 (.vint 3) "k" [] (fun mm h => Value.noConfusion h)
  · exact c7_null_extraction.2.2.1 ⟨"H", ["x"], "mediaProgress", none⟩ (.vdict []) .vnull .vnull
      (by decide)
  · exact c7_null_extraction.2.2.2 [("a", "#c")] (.vdict []) .vnull .vnull ⟨"u", "t", [], [], []⟩
      ([], []) ("a", ⟨"H", ["x"], "mediaProgress", none⟩) (by decide)

/-- C8: a linked record whose `audiobookshelf_id` resolves to no fetched
item is tallied as a skip with an "Audiobookshelf item not found" detail
(never as a failure), and the run continues: folding the remaining ids
proceeds from exactly that updated state. -/
theorem c8_item_not_found (cols : List (String × ColMeta)) (cfg : List (String × String))
    (items_dict media_progress_dict : List (Value × Value)) (me_data : Value)
    (st : SyncState) (bid : Nat) (metadata : Metadata)
    (hmd : st.db.getMetadata bid = some metadata)
    (htr : (identGet metadata.identifiers "audiobookshelf_id").truthy = true)
    (hnone : alistGet items_dict (identGet metadata.identifiers "audiobookshelf_id") = none) :
    (syncStep cols cfg items_dict media_progress_dict me_data st bid =
      { st with
        results := st.results ++ [⟨metadata.title, [], some "Audiobookshelf item not found"⟩]
        num_skip := st.num_skip + 1 }) ∧
    (∀ rest : List Nat,
      (bid :: rest).foldl (syncStep cols cfg items_dict media_progress_dict me_data) st =
        rest.foldl (syncStep cols cfg items_dict media_progress_dict me_data)
          { st with
            results := st.results ++ [⟨metadata.title, [], some "Audiobookshelf item not found"⟩]
            num_skip := st.num_skip + 1 }) := by
  have h := syncStep_notfound cols cfg items_dict media_progress_dict me_data st bid metadata
    hmd htr hnone
  exact ⟨h, fun rest => by rw [List.foldl_cons, h]⟩

/-- C8 witness: the not-found tally at a concrete linked record whose id is
absent from the items index, with an empty remainder of the run. -/
theorem c8_item_not_found_witness :
    (syncStep [] [] [] [] .vnull ⟨⟨[(1, ⟨"u8", "T8", [], [("audiobookshelf_id", .vstr "i9")], []⟩)]⟩, 0, 0, 0, []⟩ 1 =
      { (⟨⟨[(1, ⟨"u8", "T8", [], [("audiobookshelf_id", .vstr "i9")], []⟩)]⟩, 0, 0, 0, []⟩ : SyncState) with
        results := [] ++ [⟨"T8", [], some "Audiobookshelf item not found"⟩]
        num_skip := 0 + 1 }) ∧
    (([1] : List Nat).foldl (syncStep [] [] [] [] .vnull)
        ⟨⟨[(1, ⟨"u8", "T8", [], [("audiobookshelf_id", .vstr "i9")], []⟩)]⟩, 0, 0, 0, []⟩ =
      ([] : List Nat).foldl (syncStep [] [] [] [] .vnull)
        { (⟨⟨[(1, ⟨"u8", "T8", [], [("audiobookshelf_id", .vstr "i9")], []⟩)]⟩, 0, 0, 0, []⟩ : SyncState) with
          results := [] ++ [⟨"T8", [], some "Audiobookshelf item not found"⟩]
          num_skip := 0 + 1 }) :=
  ⟨(c8_item_not_found [] [] [] [] .vnull
      ⟨⟨[(1, ⟨"u8", "T8", [], [("audiobookshelf_id", .vstr "i9")], []⟩)]⟩, 0, 0, 0, []⟩ 1
      ⟨"u8", "T8", [], [("audiobookshelf_id", .vstr "i9")], []⟩
      (by decide) (by decide) (by decide)).1,
    (c8_item_not_found [] [] [] [] .vnull
      ⟨⟨[(1, ⟨"u8", "T8", [], [("audiobookshelf_id", .vstr "i9")], []⟩)]⟩, 0, 0, 0, []⟩ 1
      ⟨"u8", "T8", [], [("audiobookshelf_id", .vstr "i9")], []⟩
      (by decide) (by decide) (by decide)).2 []⟩

/-- C9: the interactive matcher's candidate list is a permutation of the
fetched items, sorted by descending match score (one point for an exact
case-insensitive title match, one for case-insensitive author membership)
with ties broken by ascending lowercased remote title. -/
theorem c9_ranked_candidates (calibre_metadata : Metadata) (items : List Value) :
    (linkDialogSortedItems calibre_metadata items).Perm items ∧
    List.Sorted (linkLe (pyLower calibre_metadata.title)
      (calibre_metadata.authors.map (fun a => pyLower a)))
      (linkDialogSortedItems calibre_metadata items) := by
  unfold linkDialogSortedItems
  exact ⟨List.perm_insertionSort _ _, List.sorted_insertionSort _ _⟩

/-- C10: when the record resolves, an UpdateSet whose every value equals the
record's current value performs no store write and returns success with an
empty updated-fields list; and a write happens only if some supplied value
differs from the current one. -/
theorem c10_no_redundant_write (db : Library) (book_uuid : String)
    (kvs : List (String × Value)) (bid : Nat) (metadata : Metadata)
    (hres : db.lookupByUuid book_uuid = some (bid, metadata)) (hbid : ¬ bid = 0) :
    ((∀ p ∈ kvs, metadata.mget p.1 = p.2) →
      update_metadata db book_uuid kvs = ⟨true, [], none, db, false⟩) ∧
    ((update_metadata db book_uuid kvs).wrote = true →
      ∃ p ∈ kvs, metadata.mget p.1 ≠ p.2) := by
  have happly : (∀ p ∈ kvs, metadata.mget p.1 = p.2) →
      applyKVs metadata kvs = (metadata, []) := by
    intro hall
    unfold applyKVs
    apply foldl_fixed
    intro p hp
    unfold applyKV
    rw [if_neg (not_ne_iff.mpr (hall p hp).symm)]
  constructor
  · intro hall
    simp only [update_metadata, hres]
    rw [if_neg hbid]
    simp only [happly hall]
    simp
  · intro hw
    by_contra hne
    push_neg at hne
    simp only [update_metadata, hres] at hw
    rw [if_neg hbid] at hw
    simp only [happly hne] at hw
    simp at hw

/-- C10 witness: a resolvable record with an all-equal UpdateSet leads to no
write, success and an empty updated list; the write-implies-difference
direction holds vacuously there. -/
theorem c10_no_redundant_write_witness :
    (update_metadata ⟨[(7, ⟨"u7", "T7", [], [], [("#c", .vint 4)]⟩)]⟩ "u7" [("#c", .vint 4)] =
      ⟨true, [], none, ⟨[(7, ⟨"u7", "T7", [], [], [("#c", .vint 4)]⟩)]⟩, false⟩) ∧
    ((update_metadata ⟨[(7, ⟨"u7", "T7", [], [], [("#c", .vint 4)]⟩)]⟩ "u7" [("#c", .vint 4)]).wrote = true →
      ∃ p ∈ [(("#c" : String), Value.vint 4)],
        (⟨"u7", "T7", [], [], [("#c", .vint 4)]⟩ : Metadata).mget p.1 ≠ p.2) :=
  ⟨(c10_no_redundant_write ⟨[(7, ⟨"u7", "T7", [], [], [("#c", .vint 4)]⟩)]⟩ "u7"
      [("#c", .vint 4)] 7 ⟨"u7", "T7", [], [], [("#c", .vint 4)]⟩ (by decide) (by decide)).1
      (by decide),
    (c10_no_redundant_write ⟨[(7, ⟨"u7", "T7", [], [], [("#c", .vint 4)]⟩)]⟩ "u7"
      [("#c", .vint 4)] 7 ⟨"u7", "T7", [], [], [("#c", .vint 4)]⟩ (by decide) (by decide)).2⟩
